import Mathlib

set_option maxRecDepth 4000

namespace TubeSync

/-!
Shallow embedding of the entity-lifecycle reconciler of tubesync,
src/tubesync/sync/signals.py.  The persistent entities (Source, Media,
MediaServer) are records; the Task Registry is a list of pending task
records keyed by (task_name, args); the external collaborators (filter
engine, format check, filesystem) are an environment of oracle functions.
Each signal handler of signals.py becomes a pure function from the entity
and the pending-task list to the updated entity, task list and persisted
snapshots.
-/

/-- A content source (sync.models.Source), with the fields the signal
handlers read or write. -/
@[ext]
structure Source where
  pk : Nat
  name : String
  source_type : String
  index_schedule : Nat
  copy_channel_images : Bool
  download_media : Bool
  delete_files_on_disk : Bool
  has_failed : Bool
  deriving Repr, DecidableEq

/-- A media item (sync.models.Media), with the fields the signal handlers
read or write.  `metadata` is the opaque fetched descriptor (present or
absent), `media_file` and `thumb` are nullable file references holding the
stored path. -/
@[ext]
structure Media where
  pk : Nat
  source : Source
  metadata : Option String
  skip : Bool
  manual_skip : Bool
  can_download : Bool
  downloaded : Bool
  media_file : Option String
  thumb : Option String
  deriving Repr, DecidableEq

/-- A registered media server (sync.models.MediaServer). -/
@[ext]
structure MediaServer where
  pk : Nat
  deriving Repr, DecidableEq

/-- A pending background task in the Task Registry, keyed by
(task_name, args); `repeatInterval` is the `repeat` keyword of a recurring
task (0 for a one-shot task), `queue` the queue partition and `priority`
the numeric priority (lower numbers are served first). -/
@[ext]
structure Task where
  task_name : String
  args : List String
  priority : Nat
  queue : Option String
  repeatInterval : Nat
  deriving Repr, DecidableEq

/-- The external collaborators of the reconciler: the Filter Engine verdict
(should_skip, reading the metadata and the Source capture rules), the
format-availability check (truthiness of Media.get_format_str, reading the
metadata and the Source specifications), the thumbnail source URL derived
from the metadata (Media.thumbnail), and the filesystem. -/
structure Env where
  shouldSkip : Option String → Source → Bool
  hasValidFormat : Option String → Source → Bool
  thumbnailUrl : Option String → Option String
  fileExists : String → Bool
  files : List String

def indexTaskName : String := "sync.tasks.index_source_task"

def metadataTaskName : String := "sync.tasks.download_media_metadata"

def thumbnailTaskName : String := "sync.tasks.download_media_thumbnail"

def downloadTaskName : String := "sync.tasks.download_media"

def rescanTaskName : String := "sync.tasks.rescan_media_server"

/-- Does a pending task match the key (task_name, args)? -/
def taskKeyMatches (n : String) (a : List String) (t : Task) : Bool :=
  t.task_name == n && t.args == a

/-- Number of pending tasks with the given key. -/
def countKey (n : String) (a : List String) (ts : List Task) : Nat :=
  ts.countP (fun t => taskKeyMatches n a t)

/-- Modelled from the spec: the Task Registry enqueue command.  With
`removeExisting` (the remove_existing_tasks keyword) any pending task with
the same key is superseded, so afterwards exactly one pending task with
that key exists. -/
def enqueue (t : Task) (removeExisting : Bool) (ts : List Task) : List Task :=
  (if removeExisting then ts.filter (fun u => !taskKeyMatches t.task_name t.args u) else ts) ++ [t]

/-- Modelled from the spec: sync.tasks.delete_task_by_media, the cancel
command for a pending task keyed by (task_name, args). -/
def delete_task_by_media (n : String) (a : List String) (ts : List Task) : List Task :=
  ts.filter (fun u => !taskKeyMatches n a u)

/-- Modelled from the spec: sync.tasks.delete_task_by_source, cancelling
the recurring job of the given kind keyed by the source id. -/
def delete_task_by_source (n : String) (spk : Nat) (ts : List Task) : List Task :=
  ts.filter (fun u => !taskKeyMatches n [toString spk] u)

/-- Modelled from the spec: sync.tasks.get_media_metadata_task, the
pending-metadata-fetch-job lookup for a media id. -/
def get_media_metadata_task (pk : Nat) (ts : List Task) : Bool :=
  ts.any (fun t => taskKeyMatches metadataTaskName [toString pk] t)

/-- Modelled from the spec: Media.thumb_file_exists — the thumbnail file
reference claims a file and that file is present in storage. -/
def thumb_file_exists (env : Env) (m : Media) : Bool :=
  match m.thumb with
  | none => false
  | some p => env.fileExists p

/-- Modelled from the spec: Media.media_file_exists — the media file
reference claims a file and that file is present in storage. -/
def media_file_exists (env : Env) (m : Media) : Bool :=
  match m.media_file with
  | none => false
  | some p => env.fileExists p

/-- Modelled from the spec: sync.filtering.filter_media — asks the Filter
Engine for its should-skip verdict, updates `skip` when the verdict differs
from the stored value, and reports whether it changed. -/
def filter_media (env : Env) (m : Media) : Media × Bool :=
  let v := env.shouldSkip m.metadata m.source
  if v = m.skip then (m, false) else ({m with skip := v}, true)

/-- The recurring indexing task enqueued by source_pre_save and
source_post_save (signals.py lines 33-40 and 63-70): repeat is the index
schedule, queue partition and argument are the source id, priority 5. -/
def index_source_task (s : Source) : Task :=
  { task_name := indexTaskName, args := [toString s.pk], priority := 5,
    queue := some (toString s.pk), repeatInterval := s.index_schedule }

/-- The one-shot metadata-fetch task enqueued by media_post_save
(signals.py lines 143-148): priority 5, default queue. -/
def media_metadata_task (m : Media) : Task :=
  { task_name := metadataTaskName, args := [toString m.pk], priority := 5,
    queue := none, repeatInterval := 0 }

/-- The one-shot thumbnail-download task enqueued by media_post_save
(signals.py lines 158-165): priority 10, queue partition the source id. -/
def media_thumbnail_task (m : Media) (url : String) : Task :=
  { task_name := thumbnailTaskName, args := [toString m.pk, url], priority := 10,
    queue := some (toString m.source.pk), repeatInterval := 0 }

/-- The one-shot media-download task enqueued by media_post_save
(signals.py lines 174-180): priority 15, queue partition the source id. -/
def media_download_task (m : Media) : Task :=
  { task_name := downloadTaskName, args := [toString m.pk], priority := 15,
    queue := some (toString m.source.pk), repeatInterval := 0 }

/-- The one-shot media-server rescan task enqueued by media_post_delete
(signals.py lines 209-214): priority 0. -/
def rescan_task (ms : MediaServer) : Task :=
  { task_name := rescanTaskName, args := [toString ms.pk], priority := 0,
    queue := none, repeatInterval := 0 }

/-- signals.py lines 118-121: reset the skip flag through the filter
engine when the media is not downloaded and has metadata. -/
def filterStep (env : Env) (m : Media) : Media × Bool :=
  if !m.downloaded && m.metadata.isSome then filter_media env m else (m, false)

/-- signals.py lines 123-133: recalculate the can_download flag when
metadata is present, reporting whether it flipped. -/
def canDownloadStep (env : Env) (m : Media) : Media × Bool :=
  if m.metadata.isSome then
    if env.hasValidFormat m.metadata m.source then
      if !m.can_download then ({m with can_download := true}, true) else (m, false)
    else
      if m.can_download then ({m with can_download := false}, true) else (m, false)
  else (m, false)

/-- signals.py lines 140-148: enqueue the one-shot metadata-fetch task when
metadata is absent, skip is false and no metadata-fetch task is pending. -/
def metadataTaskStep (ts : List Task) (m : Media) : List Task :=
  if m.metadata.isNone && !m.skip && !get_media_metadata_task m.pk ts then
    enqueue (media_metadata_task m) true ts
  else ts

/-- signals.py lines 150-151: null the thumbnail reference when the
referenced file is absent from disk. -/
def thumbNormalize (env : Env) (m : Media) : Media :=
  if !thumb_file_exists env m then {m with thumb := none} else m

/-- signals.py lines 152-165: enqueue the thumbnail-download task when
there is no thumbnail, skip is false and the metadata yields a URL. -/
def thumbnailTaskStep (env : Env) (ts : List Task) (m : Media) : List Task :=
  if m.thumb.isNone && !m.skip then
    match env.thumbnailUrl m.metadata with
    | some url => enqueue (media_thumbnail_task m url) true ts
    | none => ts
  else ts

/-- signals.py lines 167-169: null the media file reference and force
downloaded to false when the referenced file is absent from disk. -/
def mediaFileNormalize (env : Env) (m : Media) : Media :=
  if !media_file_exists env m then {m with downloaded := false, media_file := none} else m

/-- signals.py lines 170-180: cancel any pending download task for this
media key and enqueue a fresh one when the item is not downloaded,
can_download is true, skip is false and the source downloads media. -/
def downloadTaskStep (ts : List Task) (m : Media) : List Task :=
  if !m.downloaded && m.can_download && !m.skip && m.source.download_media then
    enqueue (media_download_task m) true
      (delete_task_by_media downloadTaskName [toString m.pk] ts)
  else ts

/-- Result of one run of the Media after-save rule: the in-memory instance,
the pending-task list, and the snapshot written by the corrective
persistence (none when no corrective save happened). -/
@[ext]
structure PostSaveResult where
  media : Media
  tasks : List Task
  persisted : Option Media
  deriving Repr, DecidableEq

/-- signals.py lines 110-180: the Media post_save receiver. -/
def media_post_save (env : Env) (ts : List Task) (m : Media) : PostSaveResult :=
  if m.manual_skip then ⟨m, ts, none⟩
  else
    let fm := filterStep env m
    let cd := canDownloadStep env fm.1
    let m2 := cd.1
    let persisted := if fm.2 || cd.2 then some m2 else none
    let ts1 := metadataTaskStep ts m2
    let m3 := thumbNormalize env m2
    let ts2 := thumbnailTaskStep env ts1 m3
    let m4 := mediaFileNormalize env m3
    let ts3 := downloadTaskStep ts2 m4
    ⟨m4, ts3, persisted⟩

/-- signals.py lines 20-40: the Source pre_save receiver.  `stored` is the
outcome of the primary-key lookup of the persisted row (none models
Source.DoesNotExist, handled as a no-op). -/
def source_pre_save (stored : Option Source) (ts : List Task) (s : Source) : List Task :=
  match stored with
  | none => ts
  | some existing =>
    if existing.index_schedule != s.index_schedule then
      enqueue (index_source_task s) true
        (delete_task_by_source indexTaskName s.pk ts)
    else ts

/-- The entity a permanently failed task resolves to through
sync.tasks.map_task_to_instance; modelled from the spec as a tagged union
over Source-target, Media-target and unknown-target. -/
inductive ResolvedTarget where
  | sourceT : Source → ResolvedTarget
  | mediaT : Media → ResolvedTarget
  | unknownT : ResolvedTarget
  deriving Repr, DecidableEq

/-- The entities persisted by the task_failed receiver. -/
@[ext]
structure FailedResult where
  savedSource : Option Source
  savedMedia : Option Media
  deriving Repr, DecidableEq

/-- signals.py lines 96-108: the task_failed receiver, given the resolved
target of the failed task and its task_name. -/
def task_task_failed (obj : ResolvedTarget) (taskName : String) : FailedResult :=
  match obj with
  | .sourceT s => ⟨some {s with has_failed := true}, none⟩
  | .mediaT m =>
    if taskName == metadataTaskName then ⟨none, some {m with skip := true}⟩
    else ⟨none, none⟩
  | .unknownT => ⟨none, none⟩

/-- Split a character list just before its last occurrence of c, returning
none when c does not occur. -/
def splitAtLastChar (c : Char) : List Char → Option (List Char × List Char)
  | [] => none
  | a :: rest =>
    match splitAtLastChar c rest with
    | some (x, y) => some (a :: x, y)
    | none => if a = c then some ([], a :: rest) else none

/-- Split a path at its last slash into (directory part including the
slash, basename); the directory part is empty when there is no slash. -/
def pathSplit (cs : List Char) : List Char × List Char :=
  match splitAtLastChar '/' cs with
  | none => ([], cs)
  | some (d, rest) =>
    match rest with
    | [] => (d, [])
    | a :: b => (d ++ [a], b)

/-- Shallow embedding of os.path.splitext: split the extension off at the
last dot of the basename, except that a basename whose characters before
that dot are all dots (e.g. a leading-dot file) has no extension. -/
def splitext (p : String) : String × String :=
  match splitAtLastChar '.' (pathSplit p.data).2 with
  | none => (p, "")
  | some (before, ext) =>
    if before.all (fun c => c = '.') then (p, "")
    else (String.mk ((pathSplit p.data).1 ++ before), String.mk ext)

/-- Shallow embedding of glob.glob with the pattern bare ++ ".*": the files
on disk whose path starts with the bare path followed by a dot. -/
def glob_star (env : Env) (bare : String) : List String :=
  env.files.filter (fun f => (bare ++ ".").data.isPrefixOf f.data)

/-- Result of the Media pre_delete receiver: the pending-task list and the
files deleted from disk. -/
@[ext]
structure PreDeleteResult where
  tasks : List Task
  deletedFiles : List String
  deriving Repr, DecidableEq

/-- signals.py lines 183-200: the Media pre_delete receiver.  It cancels
the pending download task for the media id, cancels the pending thumbnail
task keyed by (id, thumbnail URL) when a URL is resolvable, and, when the
owning source deletes files on disk and a media file or thumbnail reference
exists, deletes every file sharing the extension-stripped base name of the
media file (or, failing that, the thumbnail). -/
def media_pre_delete (env : Env) (ts : List Task) (m : Media) : PreDeleteResult :=
  let ts1 := delete_task_by_media downloadTaskName [toString m.pk] ts
  let ts2 :=
    match env.thumbnailUrl m.metadata with
    | some url => delete_task_by_media thumbnailTaskName [toString m.pk, url] ts1
    | none => ts1
  let deleted :=
    if m.source.delete_files_on_disk && (m.media_file.isSome || m.thumb.isSome) then
      glob_star env (splitext (match m.media_file with
        | some p => p
        | none => match m.thumb with | some q => q | none => "")).1
    else []
  ⟨ts2, deleted⟩

/-- signals.py lines 203-214: the Media post_delete receiver, enqueueing
one rescan task per registered MediaServer, each replacing any pending
instance with the same key. -/
def media_post_delete (servers : List MediaServer) (ts : List Task) : List Task :=
  servers.foldl (fun acc ms => enqueue (rescan_task ms) true acc) ts

/-- The rescan task record determined by a key string; rescan_task ms is
rescan_task_key applied to the media server id rendered as a string. -/
def rescan_task_key (k : String) : Task :=
  { task_name := rescanTaskName, args := [k], priority := 0,
    queue := none, repeatInterval := 0 }

/-- Dispatch of the Media post_save signal through the process-global
signal registry: the receiver runs only while it is connected for the Media
sender; a save performed while it is disconnected triggers nothing. -/
def dispatch_media_post_save (connected : Bool) (env : Env) (ts : List Task)
    (m : Media) : PostSaveResult :=
  if connected then media_post_save env ts m else ⟨m, ts, none⟩

/-- signals.py lines 136-138: around the corrective save the receiver is
removed from the post_save registry for the Media sender as a whole — the
disconnect carries no per-instance scope. -/
def connectedDuringCorrectiveSave : Bool := false

/-- Iterated runs of the Media after-save rule, feeding the in-memory
instance and the pending-task list of each run into the next. -/
def media_post_save_iter (env : Env) : Nat → Media × List Task → Media × List Task
  | 0, p => p
  | n + 1, p =>
    media_post_save_iter env n
      ((media_post_save env p.2 p.1).media, (media_post_save env p.2 p.1).tasks)

/-! Concrete collaborators and entities used by the witnesses and
counterexamples. -/

def envW : Env :=
  { shouldSkip := fun _ _ => false, hasValidFormat := fun _ _ => true,
    thumbnailUrl := fun _ => none, fileExists := fun _ => true, files := [] }

def srcW : Source :=
  { pk := 1, name := "s", source_type := "c", index_schedule := 0,
    copy_channel_images := false, download_media := true,
    delete_files_on_disk := false, has_failed := false }

def mW1 : Media :=
  { pk := 2, source := srcW, metadata := none, skip := false, manual_skip := true,
    can_download := false, downloaded := false, media_file := none, thumb := none }

def mW2 : Media :=
  { pk := 3, source := srcW, metadata := some "md", skip := false,
    manual_skip := false, can_download := false, downloaded := false,
    media_file := none, thumb := none }

/-- C3 entities: filter verdict should-skip, all files absent from disk. -/
def envC3 : Env :=
  { shouldSkip := fun _ _ => true, hasValidFormat := fun _ _ => true,
    thumbnailUrl := fun _ => none, fileExists := fun _ => false, files := [] }

/-- A downloaded item whose media file is missing from disk and whose
filter verdict differs from its stored skip flag. -/
def mC3 : Media :=
  { pk := 4, source := srcW, metadata := some "md", skip := false,
    manual_skip := false, can_download := true, downloaded := true,
    media_file := some "x.mp4", thumb := none }

def srcC4 : Source :=
  { pk := 5, name := "s5", source_type := "c", index_schedule := 3600,
    copy_channel_images := false, download_media := false,
    delete_files_on_disk := false, has_failed := false }

/-- A media item with no metadata and skip false, whose owning source does
not download media. -/
def mC4 : Media :=
  { pk := 6, source := srcC4, metadata := none, skip := false,
    manual_skip := false, can_download := false, downloaded := false,
    media_file := none, thumb := none }

/-- A download-eligible media item. -/
def mC5 : Media :=
  { pk := 7, source := srcW, metadata := some "md", skip := false,
    manual_skip := false, can_download := true, downloaded := false,
    media_file := none, thumb := none }

def srcC6 : Source :=
  { pk := 8, name := "s8", source_type := "c", index_schedule := 0,
    copy_channel_images := false, download_media := false,
    delete_files_on_disk := false, has_failed := false }

def srcC6b : Source := { srcC6 with index_schedule := 3600 }

/-- A Source target of a permanently failed job. -/
def srcC7 : Source :=
  { pk := 9, name := "s9", source_type := "c", index_schedule := 0,
    copy_channel_images := false, download_media := false,
    delete_files_on_disk := false, has_failed := false }

def mC7 : Media :=
  { pk := 10, source := srcC7, metadata := none, skip := false,
    manual_skip := false, can_download := false, downloaded := false,
    media_file := none, thumb := none }

def srcC8 : Source :=
  { pk := 11, name := "s11", source_type := "c", index_schedule := 0,
    copy_channel_images := false, download_media := true,
    delete_files_on_disk := true, has_failed := false }

/-- A filesystem holding sibling artifact files sharing one stem. -/
def envC8 : Env :=
  { shouldSkip := fun _ _ => false, hasValidFormat := fun _ _ => true,
    thumbnailUrl := fun _ => none, fileExists := fun _ => true,
    files := ["d/v.mp4", "d/v.srt", "d/v.nfo", "d/other.mp4"] }

def mC8 : Media :=
  { pk := 12, source := srcC8, metadata := some "md", skip := false,
    manual_skip := false, can_download := true, downloaded := true,
    media_file := some "d/v.mp4", thumb := none }

/-! Field-preservation lemmas for the individual steps of the Media
after-save rule. -/

theorem filter_media_fst (env : Env) (m : Media) :
    (filter_media env m).1 = {m with skip := env.shouldSkip m.metadata m.source} := by
  unfold filter_media
  dsimp only
  split
  · next h => cases m; simp_all
  · rfl

theorem filter_media_snd (env : Env) (m : Media) :
    (filter_media env m).2 = (env.shouldSkip m.metadata m.source != m.skip) := by
  unfold filter_media
  dsimp only
  split <;> simp_all

theorem filterStep_fst (env : Env) (m : Media) :
    (filterStep env m).1 =
      if !m.downloaded && m.metadata.isSome then
        {m with skip := env.shouldSkip m.metadata m.source}
      else m := by
  unfold filterStep
  split
  · next h => simp [filter_media_fst, h]
  · next h => simp [h]

theorem filterStep_snd (env : Env) (m : Media) :
    (filterStep env m).2 =
      ((!m.downloaded && m.metadata.isSome) &&
        (env.shouldSkip m.metadata m.source != m.skip)) := by
  unfold filterStep
  split
  · next h => simp [filter_media_snd, h]
  · next h => simp [h]

theorem canDownloadStep_fst (env : Env) (m : Media) :
    (canDownloadStep env m).1 =
      if m.metadata.isSome then
        {m with can_download := env.hasValidFormat m.metadata m.source}
      else m := by
  unfold canDownloadStep
  split
  · split
    · split
      · next h2 h3 => simp_all
      · next h2 h3 => cases m; simp_all
    · split
      · next h2 h3 => simp_all
      · next h2 h3 => cases m; simp_all
  · simp_all

theorem canDownloadStep_snd (env : Env) (m : Media) :
    (canDownloadStep env m).2 =
      (m.metadata.isSome && (env.hasValidFormat m.metadata m.source != m.can_download)) := by
  unfold canDownloadStep
  split
  · split
    · split <;> simp_all
    · split <;> simp_all
  · simp_all

theorem thumbNormalize_eq (env : Env) (m : Media) :
    thumbNormalize env m =
      if !thumb_file_exists env m then {m with thumb := none} else m := rfl

theorem thumbNormalize_skip (env : Env) (m : Media) :
    (thumbNormalize env m).skip = m.skip := by
  unfold thumbNormalize; split <;> rfl

theorem thumbNormalize_metadata (env : Env) (m : Media) :
    (thumbNormalize env m).metadata = m.metadata := by
  unfold thumbNormalize; split <;> rfl

theorem thumbNormalize_source (env : Env) (m : Media) :
    (thumbNormalize env m).source = m.source := by
  unfold thumbNormalize; split <;> rfl

theorem thumbNormalize_can_download (env : Env) (m : Media) :
    (thumbNormalize env m).can_download = m.can_download := by
  unfold thumbNormalize; split <;> rfl

theorem thumbNormalize_downloaded (env : Env) (m : Media) :
    (thumbNormalize env m).downloaded = m.downloaded := by
  unfold thumbNormalize; split <;> rfl

theorem thumbNormalize_media_file (env : Env) (m : Media) :
    (thumbNormalize env m).media_file = m.media_file := by
  unfold thumbNormalize; split <;> rfl

theorem thumbNormalize_pk (env : Env) (m : Media) :
    (thumbNormalize env m).pk = m.pk := by
  unfold thumbNormalize; split <;> rfl

theorem thumbNormalize_manual_skip (env : Env) (m : Media) :
    (thumbNormalize env m).manual_skip = m.manual_skip := by
  unfold thumbNormalize; split <;> rfl

theorem mediaFileNormalize_eq (env : Env) (m : Media) :
    mediaFileNormalize env m =
      if !media_file_exists env m then {m with downloaded := false, media_file := none}
      else m := rfl

theorem mediaFileNormalize_skip (env : Env) (m : Media) :
    (mediaFileNormalize env m).skip = m.skip := by
  unfold mediaFileNormalize; split <;> rfl

theorem mediaFileNormalize_metadata (env : Env) (m : Media) :
    (mediaFileNormalize env m).metadata = m.metadata := by
  unfold mediaFileNormalize; split <;> rfl

theorem mediaFileNormalize_source (env : Env) (m : Media) :
    (mediaFileNormalize env m).source = m.source := by
  unfold mediaFileNormalize; split <;> rfl

theorem mediaFileNormalize_can_download (env : Env) (m : Media) :
    (mediaFileNormalize env m).can_download = m.can_download := by
  unfold mediaFileNormalize; split <;> rfl

theorem mediaFileNormalize_thumb (env : Env) (m : Media) :
    (mediaFileNormalize env m).thumb = m.thumb := by
  unfold mediaFileNormalize; split <;> rfl

theorem mediaFileNormalize_pk (env : Env) (m : Media) :
    (mediaFileNormalize env m).pk = m.pk := by
  unfold mediaFileNormalize; split <;> rfl

theorem mediaFileNormalize_manual_skip (env : Env) (m : Media) :
    (mediaFileNormalize env m).manual_skip = m.manual_skip := by
  unfold mediaFileNormalize; split <;> rfl

theorem mediaFileNormalize_downloaded (env : Env) (m : Media) :
    (mediaFileNormalize env m).downloaded = (media_file_exists env m && m.downloaded) := by
  unfold mediaFileNormalize
  split
  · next hc => simp at hc; simp [hc]
  · next hc => simp at hc; simp [hc]

theorem media_file_exists_congr (env : Env) (m m' : Media)
    (h : m.media_file = m'.media_file) :
    media_file_exists env m = media_file_exists env m' := by
  unfold media_file_exists; rw [h]

/-! Decomposition of the Media after-save rule into its steps. -/

theorem media_post_save_of_manual_skip (env : Env) (ts : List Task) (m : Media)
    (h : m.manual_skip = true) :
    media_post_save env ts m = ⟨m, ts, none⟩ := by
  unfold media_post_save; simp [h]

theorem media_post_save_media (env : Env) (ts : List Task) (m : Media)
    (h : m.manual_skip = false) :
    (media_post_save env ts m).media =
      mediaFileNormalize env (thumbNormalize env (canDownloadStep env (filterStep env m).1).1) := by
  unfold media_post_save; simp [h]

theorem media_post_save_tasks (env : Env) (ts : List Task) (m : Media)
    (h : m.manual_skip = false) :
    (media_post_save env ts m).tasks =
      downloadTaskStep
        (thumbnailTaskStep env
          (metadataTaskStep ts (canDownloadStep env (filterStep env m).1).1)
          (thumbNormalize env (canDownloadStep env (filterStep env m).1).1))
        (mediaFileNormalize env (thumbNormalize env (canDownloadStep env (filterStep env m).1).1)) := by
  unfold media_post_save; simp [h]

theorem media_post_save_persisted (env : Env) (ts : List Task) (m : Media)
    (h : m.manual_skip = false) :
    (media_post_save env ts m).persisted =
      if (filterStep env m).2 || (canDownloadStep env (filterStep env m).1).2 then
        some (canDownloadStep env (filterStep env m).1).1
      else none := by
  unfold media_post_save; simp [h]

/-! Task Registry counting lemmas. -/

theorem taskKeyMatches_self (t : Task) : taskKeyMatches t.task_name t.args t = true := by
  simp [taskKeyMatches]

theorem taskKeyMatches_disjoint (n : String) (a : List String) (n2 : String)
    (a2 : List String) (t : Task) (h : n ≠ n2 ∨ a ≠ a2)
    (h2 : taskKeyMatches n2 a2 t = true) : taskKeyMatches n a t = false := by
  unfold taskKeyMatches at h2 ⊢
  simp only [Bool.and_eq_true, beq_iff_eq] at h2
  rw [h2.1, h2.2]
  rcases h with h | h
  · have hb : (n2 == n) = false := beq_eq_false_iff_ne.mpr (fun hc => h hc.symm)
    simp [hb]
  · have hb : (a2 == a) = false := beq_eq_false_iff_ne.mpr (fun hc => h hc.symm)
    simp [hb]

theorem countKey_delete_other (n : String) (a : List String) (n2 : String)
    (a2 : List String) (ts : List Task) (h : n ≠ n2 ∨ a ≠ a2) :
    countKey n a (delete_task_by_media n2 a2 ts) = countKey n a ts := by
  unfold countKey delete_task_by_media
  induction ts with
  | nil => rfl
  | cons t ts ih =>
    by_cases hk : taskKeyMatches n2 a2 t = true
    · have hd := taskKeyMatches_disjoint n a n2 a2 t h hk
      simp [List.filter_cons, List.countP_cons, hk, hd, ih]
    · simp only [Bool.not_eq_true] at hk
      simp [List.filter_cons, List.countP_cons, hk, ih]

theorem countKey_delete_self (n : String) (a : List String) (ts : List Task) :
    countKey n a (delete_task_by_media n a ts) = 0 := by
  unfold countKey delete_task_by_media
  induction ts with
  | nil => rfl
  | cons t ts ih =>
    by_cases hk : taskKeyMatches n a t = true
    · simp [List.filter_cons, hk, ih]
    · simp only [Bool.not_eq_true] at hk
      simp [List.filter_cons, List.countP_cons, hk, ih]

theorem enqueue_true_eq (t : Task) (ts : List Task) :
    enqueue t true ts = delete_task_by_media t.task_name t.args ts ++ [t] := rfl

theorem countKey_append (n : String) (a : List String) (ts1 ts2 : List Task) :
    countKey n a (ts1 ++ ts2) = countKey n a ts1 + countKey n a ts2 := by
  unfold countKey; exact List.countP_append _ _ _

theorem countKey_enqueue_self (t : Task) (ts : List Task) :
    countKey t.task_name t.args (enqueue t true ts) = 1 := by
  rw [enqueue_true_eq, countKey_append, countKey_delete_self]
  unfold countKey
  simp [List.countP_cons, taskKeyMatches_self]

theorem countKey_enqueue_other (n : String) (a : List String) (t : Task)
    (ts : List Task) (h : taskKeyMatches n a t = false) :
    countKey n a (enqueue t true ts) = countKey n a ts := by
  have hd : n ≠ t.task_name ∨ a ≠ t.args := by
    unfold taskKeyMatches at h
    by_cases h1 : t.task_name = n
    · right
      intro hc
      rw [h1, hc] at h
      simp at h
    · left
      exact fun hc => h1 hc.symm
  rw [enqueue_true_eq, countKey_append, countKey_delete_other n a _ _ ts hd]
  unfold countKey
  simp [List.countP_cons, h]

theorem filter_key_delete_self (n : String) (a : List String) (ts : List Task) :
    (delete_task_by_media n a ts).filter (fun u => taskKeyMatches n a u) = [] := by
  unfold delete_task_by_media
  induction ts with
  | nil => rfl
  | cons t ts ih =>
    by_cases hk : taskKeyMatches n a t = true
    · simp [List.filter_cons, hk, ih]
    · simp only [Bool.not_eq_true] at hk
      simp [List.filter_cons, hk, ih]

theorem filter_key_enqueue_self (t : Task) (ts : List Task) :
    (enqueue t true ts).filter (fun u => taskKeyMatches t.task_name t.args u) = [t] := by
  rw [enqueue_true_eq, List.filter_append, filter_key_delete_self]
  simp [taskKeyMatches_self]

theorem metadataTaskName_ne_thumbnail : metadataTaskName ≠ thumbnailTaskName := by decide

theorem metadataTaskName_ne_download : metadataTaskName ≠ downloadTaskName := by decide

theorem downloadTaskName_ne_thumbnail : downloadTaskName ≠ thumbnailTaskName := by decide

/-! Preservation of unrelated keys by the task-enqueueing steps. -/

theorem countKey_metadataTaskStep_of_ne (n : String) (a : List String)
    (ts : List Task) (m : Media) (h : n ≠ metadataTaskName) :
    countKey n a (metadataTaskStep ts m) = countKey n a ts := by
  unfold metadataTaskStep
  split
  · exact countKey_enqueue_other n a _ ts (by
      unfold taskKeyMatches media_metadata_task
      simp [h]
      exact fun hc => absurd hc.symm h)
  · rfl

theorem countKey_thumbnailTaskStep_of_ne (env : Env) (n : String) (a : List String)
    (ts : List Task) (m : Media) (h : n ≠ thumbnailTaskName) :
    countKey n a (thumbnailTaskStep env ts m) = countKey n a ts := by
  unfold thumbnailTaskStep
  split
  · split
    · exact countKey_enqueue_other n a _ ts (by
        unfold taskKeyMatches media_thumbnail_task
        simp [h]
        exact fun hc => absurd hc.symm h)
    · rfl
  · rfl

theorem countKey_downloadTaskStep_of_ne (n : String) (a : List String)
    (ts : List Task) (m : Media) (h : n ≠ downloadTaskName) :
    countKey n a (downloadTaskStep ts m) = countKey n a ts := by
  unfold downloadTaskStep
  split
  · rw [countKey_enqueue_other n a _ _ (by
      unfold taskKeyMatches media_download_task
      simp [h]
      exact fun hc => absurd hc.symm h)]
    exact countKey_delete_other n a _ _ ts (Or.inl h)
  · rfl

/-! Per-field corollaries for filterStep and canDownloadStep. -/

theorem filterStep_metadata (env : Env) (m : Media) :
    (filterStep env m).1.metadata = m.metadata := by
  rw [filterStep_fst]; split <;> rfl

theorem filterStep_source (env : Env) (m : Media) :
    (filterStep env m).1.source = m.source := by
  rw [filterStep_fst]; split <;> rfl

theorem filterStep_can_download (env : Env) (m : Media) :
    (filterStep env m).1.can_download = m.can_download := by
  rw [filterStep_fst]; split <;> rfl

theorem filterStep_downloaded (env : Env) (m : Media) :
    (filterStep env m).1.downloaded = m.downloaded := by
  rw [filterStep_fst]; split <;> rfl

theorem filterStep_media_file (env : Env) (m : Media) :
    (filterStep env m).1.media_file = m.media_file := by
  rw [filterStep_fst]; split <;> rfl

theorem filterStep_thumb (env : Env) (m : Media) :
    (filterStep env m).1.thumb = m.thumb := by
  rw [filterStep_fst]; split <;> rfl

theorem filterStep_pk (env : Env) (m : Media) :
    (filterStep env m).1.pk = m.pk := by
  rw [filterStep_fst]; split <;> rfl

theorem filterStep_manual_skip (env : Env) (m : Media) :
    (filterStep env m).1.manual_skip = m.manual_skip := by
  rw [filterStep_fst]; split <;> rfl

theorem filterStep_skip (env : Env) (m : Media) :
    (filterStep env m).1.skip =
      if !m.downloaded && m.metadata.isSome then env.shouldSkip m.metadata m.source
      else m.skip := by
  rw [filterStep_fst]; split <;> rfl

theorem canDownloadStep_metadata (env : Env) (m : Media) :
    (canDownloadStep env m).1.metadata = m.metadata := by
  rw [canDownloadStep_fst]; split <;> rfl

theorem canDownloadStep_source (env : Env) (m : Media) :
    (canDownloadStep env m).1.source = m.source := by
  rw [canDownloadStep_fst]; split <;> rfl

theorem canDownloadStep_skip (env : Env) (m : Media) :
    (canDownloadStep env m).1.skip = m.skip := by
  rw [canDownloadStep_fst]; split <;> rfl

theorem canDownloadStep_downloaded (env : Env) (m : Media) :
    (canDownloadStep env m).1.downloaded = m.downloaded := by
  rw [canDownloadStep_fst]; split <;> rfl

theorem canDownloadStep_media_file (env : Env) (m : Media) :
    (canDownloadStep env m).1.media_file = m.media_file := by
  rw [canDownloadStep_fst]; split <;> rfl

theorem canDownloadStep_thumb (env : Env) (m : Media) :
    (canDownloadStep env m).1.thumb = m.thumb := by
  rw [canDownloadStep_fst]; split <;> rfl

theorem canDownloadStep_pk (env : Env) (m : Media) :
    (canDownloadStep env m).1.pk = m.pk := by
  rw [canDownloadStep_fst]; split <;> rfl

theorem canDownloadStep_manual_skip (env : Env) (m : Media) :
    (canDownloadStep env m).1.manual_skip = m.manual_skip := by
  rw [canDownloadStep_fst]; split <;> rfl

theorem canDownloadStep_can_download (env : Env) (m : Media) :
    (canDownloadStep env m).1.can_download =
      if m.metadata.isSome then env.hasValidFormat m.metadata m.source
      else m.can_download := by
  rw [canDownloadStep_fst]; split <;> rfl

/-- C1: for every Media item with manual_skip true, the Media after-save
rule stops immediately: the in-memory instance (in particular its skip and
can_download flags) is unchanged, no corrective persistence occurs, and the
pending-task list is untouched, so no metadata-fetch, thumbnail or download
job is enqueued. -/
theorem claim_C1 (env : Env) (ts : List Task) (m : Media)
    (h : m.manual_skip = true) :
    media_post_save env ts m = ⟨m, ts, none⟩ :=
  media_post_save_of_manual_skip env ts m h

/-- Witness for C1 at a concrete manually skipped media item. -/
theorem claim_C1_witness :
    media_post_save envW [] mW1 = ⟨mW1, [], none⟩ :=
  claim_C1 envW [] mW1 rfl

/-- C2: for every Media item with manual_skip false, after the after-save
rule runs: if metadata is present and a valid format specification can be
derived, can_download is true regardless of its prior value; if metadata is
present and no valid format exists, can_download is false; if metadata is
absent, can_download is left unchanged. -/
theorem claim_C2 (env : Env) (ts : List Task) (m : Media)
    (h : m.manual_skip = false) :
    (m.metadata.isSome = true → env.hasValidFormat m.metadata m.source = true →
        (media_post_save env ts m).media.can_download = true) ∧
    (m.metadata.isSome = true → env.hasValidFormat m.metadata m.source = false →
        (media_post_save env ts m).media.can_download = false) ∧
    (m.metadata = none →
        (media_post_save env ts m).media.can_download = m.can_download) := by
  have hmid : (media_post_save env ts m).media.can_download =
      (if m.metadata.isSome then env.hasValidFormat m.metadata m.source
       else m.can_download) := by
    rw [media_post_save_media env ts m h, mediaFileNormalize_can_download,
      thumbNormalize_can_download, canDownloadStep_can_download,
      filterStep_metadata, filterStep_source, filterStep_can_download]
  refine ⟨?_, ?_, ?_⟩
  · intro h1 h2
    rw [hmid, if_pos h1, h2]
  · intro h1 h2
    rw [hmid, if_pos h1, h2]
  · intro h1
    rw [hmid]
    simp [h1]

/-- Witness for C2 at a concrete media item with metadata, a valid format
and can_download initially false. -/
theorem claim_C2_witness :
    (media_post_save envW [] mW2).media.can_download = true :=
  (claim_C2 envW [] mW2 rfl).1 rfl rfl

/-- C3 counterexample: running the after-save rule twice in a row with the
same collaborator verdicts and no external change, on a downloaded item
whose media file is absent from disk, the first run writes nothing but
flips downloaded to false in memory, and the second run then performs a
corrective persistence (the filter step newly applies and changes skip), so
the second run is not a no-op write-wise. -/
theorem claim_C3_counterexample :
    (media_post_save envC3 [] mC3).persisted = none ∧
    (media_post_save envC3 (media_post_save envC3 [] mC3).tasks
      (media_post_save envC3 [] mC3).media).persisted.isSome = true := by
  decide

/-- C3 amended: running the Media after-save rule twice in succession with
no intervening change performs no corrective persistence on the second run,
provided the item was not marked downloaded while its media file was absent
from disk; in that excluded case the first run flips downloaded to false in
memory, which newly enables the filter re-evaluation on the second run and
can produce a corrective skip write. -/
theorem claim_C3_amended (env : Env) (ts : List Task) (m : Media)
    (h : m.downloaded = true → media_file_exists env m = true) :
    (media_post_save env (media_post_save env ts m).tasks
      (media_post_save env ts m).media).persisted = none := by
  by_cases hm : m.manual_skip = true
  · rw [media_post_save_of_manual_skip env ts m hm]
    show (media_post_save env ts m).persisted = none
    rw [media_post_save_of_manual_skip env ts m hm]
  · rw [Bool.not_eq_true] at hm
    have hMeq := media_post_save_media env ts m hm
    have hman : (media_post_save env ts m).media.manual_skip = false := by
      rw [hMeq, mediaFileNormalize_manual_skip, thumbNormalize_manual_skip,
        canDownloadStep_manual_skip, filterStep_manual_skip, hm]
    have hmeta : (media_post_save env ts m).media.metadata = m.metadata := by
      rw [hMeq, mediaFileNormalize_metadata, thumbNormalize_metadata,
        canDownloadStep_metadata, filterStep_metadata]
    have hsrc : (media_post_save env ts m).media.source = m.source := by
      rw [hMeq, mediaFileNormalize_source, thumbNormalize_source,
        canDownloadStep_source, filterStep_source]
    have hcd : (media_post_save env ts m).media.can_download =
        (if m.metadata.isSome then env.hasValidFormat m.metadata m.source
         else m.can_download) := by
      rw [hMeq, mediaFileNormalize_can_download, thumbNormalize_can_download,
        canDownloadStep_can_download, filterStep_metadata, filterStep_source,
        filterStep_can_download]
    have hskip : (media_post_save env ts m).media.skip =
        (if !m.downloaded && m.metadata.isSome then env.shouldSkip m.metadata m.source
         else m.skip) := by
      rw [hMeq, mediaFileNormalize_skip, thumbNormalize_skip, canDownloadStep_skip,
        filterStep_skip]
    have hm3 : (thumbNormalize env (canDownloadStep env (filterStep env m).1).1).media_file
        = m.media_file := by
      rw [thumbNormalize_media_file, canDownloadStep_media_file, filterStep_media_file]
    have hdl : (media_post_save env ts m).media.downloaded =
        (media_file_exists env m && m.downloaded) := by
      rw [hMeq, mediaFileNormalize_downloaded,
        media_file_exists_congr env _ m hm3, thumbNormalize_downloaded,
        canDownloadStep_downloaded, filterStep_downloaded]
    rw [media_post_save_persisted env (media_post_save env ts m).tasks
      (media_post_save env ts m).media hman]
    have hf2 : (filterStep env (media_post_save env ts m).media).2 = false := by
      rw [filterStep_snd, hmeta, hsrc, hskip, hdl]
      cases hmo : m.metadata with
      | none => simp
      | some d =>
        cases hdlc : m.downloaded with
        | true => simp [h hdlc, hdlc]
        | false => simp
    have hc2 : (canDownloadStep env (filterStep env (media_post_save env ts m).media).1).2
        = false := by
      rw [canDownloadStep_snd, filterStep_metadata, filterStep_source,
        filterStep_can_download, hmeta, hsrc, hcd]
      cases hmo : m.metadata with
      | none => simp
      | some d => simp
    rw [hf2, hc2]
    rfl

/-- Witness for the amended C3 at a concrete not-downloaded media item. -/
theorem claim_C3_witness :
    (media_post_save envW (media_post_save envW [] mW2).tasks
      (media_post_save envW [] mW2).media).persisted = none :=
  claim_C3_amended envW [] mW2 (fun hc => absurd hc (by decide))

/-! Whole-run field lemmas and metadata-task counting. -/

theorem media_post_save_pk (env : Env) (ts : List Task) (m : Media) :
    (media_post_save env ts m).media.pk = m.pk := by
  by_cases hm : m.manual_skip = true
  · rw [media_post_save_of_manual_skip env ts m hm]
  · rw [Bool.not_eq_true] at hm
    rw [media_post_save_media env ts m hm, mediaFileNormalize_pk, thumbNormalize_pk,
      canDownloadStep_pk, filterStep_pk]

theorem media_post_save_metadata (env : Env) (ts : List Task) (m : Media) :
    (media_post_save env ts m).media.metadata = m.metadata := by
  by_cases hm : m.manual_skip = true
  · rw [media_post_save_of_manual_skip env ts m hm]
  · rw [Bool.not_eq_true] at hm
    rw [media_post_save_media env ts m hm, mediaFileNormalize_metadata,
      thumbNormalize_metadata, canDownloadStep_metadata, filterStep_metadata]

theorem media_post_save_manual_skip (env : Env) (ts : List Task) (m : Media) :
    (media_post_save env ts m).media.manual_skip = m.manual_skip := by
  by_cases hm : m.manual_skip = true
  · rw [media_post_save_of_manual_skip env ts m hm]
  · rw [Bool.not_eq_true] at hm
    rw [media_post_save_media env ts m hm, mediaFileNormalize_manual_skip,
      thumbNormalize_manual_skip, canDownloadStep_manual_skip, filterStep_manual_skip]

theorem media_post_save_source (env : Env) (ts : List Task) (m : Media) :
    (media_post_save env ts m).media.source = m.source := by
  by_cases hm : m.manual_skip = true
  · rw [media_post_save_of_manual_skip env ts m hm]
  · rw [Bool.not_eq_true] at hm
    rw [media_post_save_media env ts m hm, mediaFileNormalize_source,
      thumbNormalize_source, canDownloadStep_source, filterStep_source]

theorem media_post_save_skip_of_metadata_none (env : Env) (ts : List Task)
    (m : Media) (h0 : m.metadata = none) :
    (media_post_save env ts m).media.skip = m.skip := by
  by_cases hm : m.manual_skip = true
  · rw [media_post_save_of_manual_skip env ts m hm]
  · rw [Bool.not_eq_true] at hm
    rw [media_post_save_media env ts m hm, mediaFileNormalize_skip,
      thumbNormalize_skip, canDownloadStep_skip, filterStep_skip, h0]
    simp

theorem get_media_metadata_task_eq_false_iff (pk : Nat) (ts : List Task) :
    get_media_metadata_task pk ts = false ↔
      countKey metadataTaskName [toString pk] ts = 0 := by
  unfold get_media_metadata_task countKey
  rw [List.countP_eq_zero, List.any_eq_false]

theorem metadataTaskStep_count_pipeline (env : Env) (ts0 : List Task) (m : Media) :
    countKey metadataTaskName [toString m.pk]
      (metadataTaskStep ts0 (canDownloadStep env (filterStep env m).1).1)
    = if m.metadata.isNone && !m.skip && !get_media_metadata_task m.pk ts0 then 1
      else countKey metadataTaskName [toString m.pk] ts0 := by
  have hm2meta : (canDownloadStep env (filterStep env m).1).1.metadata = m.metadata := by
    rw [canDownloadStep_metadata, filterStep_metadata]
  have hm2pk : (canDownloadStep env (filterStep env m).1).1.pk = m.pk := by
    rw [canDownloadStep_pk, filterStep_pk]
  cases hmo : m.metadata with
  | some d =>
    have h2 : (canDownloadStep env (filterStep env m).1).1.metadata.isNone = false := by
      rw [hm2meta, hmo]; rfl
    unfold metadataTaskStep
    rw [h2]
    simp
  | none =>
    have hskip2 : (canDownloadStep env (filterStep env m).1).1.skip = m.skip := by
      rw [canDownloadStep_skip, filterStep_skip, hmo]
      simp
    have h2 : (canDownloadStep env (filterStep env m).1).1.metadata.isNone = true := by
      rw [hm2meta, hmo]; rfl
    have hkey : media_metadata_task (canDownloadStep env (filterStep env m).1).1
        = media_metadata_task m := by
      unfold media_metadata_task
      rw [hm2pk]
    unfold metadataTaskStep
    rw [h2, hskip2, hm2pk, hkey]
    by_cases hs : m.skip = true
    · simp [hs]
    · rw [Bool.not_eq_true] at hs
      by_cases hg : get_media_metadata_task m.pk ts0 = true
      · simp [hs, hg]
      · rw [Bool.not_eq_true] at hg
        simp only [hs, hg, Bool.not_false, Bool.and_true, Bool.true_and]
        rw [if_pos (show (Option.isNone (none : Option String)) = true from rfl)]
        exact countKey_enqueue_self (media_metadata_task m) ts0

theorem media_post_save_metaCount (env : Env) (ts : List Task) (m : Media)
    (h : m.manual_skip = false) :
    countKey metadataTaskName [toString m.pk] (media_post_save env ts m).tasks
    = if m.metadata.isNone && !m.skip && !get_media_metadata_task m.pk ts then 1
      else countKey metadataTaskName [toString m.pk] ts := by
  rw [media_post_save_tasks env ts m h,
    countKey_downloadTaskStep_of_ne _ _ _ _ metadataTaskName_ne_download,
    countKey_thumbnailTaskStep_of_ne env _ _ _ _ metadataTaskName_ne_thumbnail,
    metadataTaskStep_count_pipeline env ts m]

theorem metadataCond_iff (ts : List Task) (m : Media) :
    (m.metadata.isNone && !m.skip && !get_media_metadata_task m.pk ts) = true ↔
      (m.metadata = none ∧ m.skip = false ∧ get_media_metadata_task m.pk ts = false) := by
  simp [Bool.and_eq_true, Option.isNone_iff_eq_none, Bool.not_eq_true', and_assoc]

/-- C4 counterexample: on a metadata-less unskipped item the rule does
enqueue the metadata-fetch job, but at numeric priority 5, exactly the
priority of the recurring indexing job of the owning source, not a
priority strictly above routine indexing. -/
theorem claim_C4_counterexample :
    (media_post_save envW [] mC4).tasks = [media_metadata_task mC4] ∧
    (media_metadata_task mC4).priority = 5 ∧
    (index_source_task srcC4).priority = 5 := by
  decide

/-- C4 amended: for every Media item with manual_skip false, the after-save
rule enqueues a one-shot metadata-fetch job exactly when metadata is
absent, skip is false and no metadata-fetch job is pending for the item;
the job carries priority 5 — the same numeric priority as routine indexing
and numerically below thumbnail (10) and download (15), hence dispatched
before them under lower-number-first ordering — and re-running the rule
before metadata arrives never produces a second pending metadata-fetch
job. -/
theorem claim_C4 (env : Env) (ts : List Task) (m : Media)
    (h : m.manual_skip = false) :
    (countKey metadataTaskName [toString m.pk] (media_post_save env ts m).tasks
        = countKey metadataTaskName [toString m.pk] ts + 1
      ↔ (m.metadata = none ∧ m.skip = false ∧
          get_media_metadata_task m.pk ts = false)) ∧
    (media_metadata_task m).priority = (index_source_task m.source).priority ∧
    (∀ url, (media_metadata_task m).priority < (media_thumbnail_task m url).priority) ∧
    (media_metadata_task m).priority < (media_download_task m).priority ∧
    (media_metadata_task m).repeatInterval = 0 ∧
    (m.metadata = none → m.skip = false → get_media_metadata_task m.pk ts = false →
      countKey metadataTaskName [toString m.pk] (media_post_save env ts m).tasks = 1 ∧
      countKey metadataTaskName [toString m.pk]
        (media_post_save env (media_post_save env ts m).tasks
          (media_post_save env ts m).media).tasks = 1) := by
  refine ⟨?_, rfl, fun url => by show (5 : Nat) < 10; decide,
    by show (5 : Nat) < 15; decide, rfl, ?_⟩
  · constructor
    · intro hcount
      rw [media_post_save_metaCount env ts m h] at hcount
      by_cases hb : (m.metadata.isNone && !m.skip && !get_media_metadata_task m.pk ts)
          = true
      · exact (metadataCond_iff ts m).mp hb
      · rw [Bool.not_eq_true] at hb
        rw [hb] at hcount
        simp at hcount
    · intro hc
      rw [media_post_save_metaCount env ts m h]
      have hb := (metadataCond_iff ts m).mpr hc
      rw [hb, (get_media_metadata_task_eq_false_iff m.pk ts).mp hc.2.2]
      simp
  · intro h1 h2 h3
    have hb : (m.metadata.isNone && !m.skip && !get_media_metadata_task m.pk ts)
        = true := (metadataCond_iff ts m).mpr ⟨h1, h2, h3⟩
    have hfirst : countKey metadataTaskName [toString m.pk]
        (media_post_save env ts m).tasks = 1 := by
      rw [media_post_save_metaCount env ts m h, hb]
      simp
    refine ⟨hfirst, ?_⟩
    have hman2 : (media_post_save env ts m).media.manual_skip = false := by
      rw [media_post_save_manual_skip, h]
    have hcount2 := media_post_save_metaCount env (media_post_save env ts m).tasks
      (media_post_save env ts m).media hman2
    rw [media_post_save_pk env ts m] at hcount2
    have hget : get_media_metadata_task m.pk (media_post_save env ts m).tasks
        = true := by
      cases hgb : get_media_metadata_task m.pk (media_post_save env ts m).tasks with
      | true => rfl
      | false =>
        have h0 := (get_media_metadata_task_eq_false_iff m.pk _).mp hgb
        rw [hfirst] at h0
        exact absurd h0 one_ne_zero
    rw [hget] at hcount2
    simp only [Bool.not_true, Bool.and_false] at hcount2
    rw [hcount2, hfirst]
    simp

/-- Witness for the amended C4 at a concrete metadata-less media item. -/
theorem claim_C4_witness :
    countKey metadataTaskName [toString mC4.pk] (media_post_save envW [] mC4).tasks
      = countKey metadataTaskName [toString mC4.pk] ([] : List Task) + 1 :=
  (claim_C4 envW [] mC4 rfl).1.mpr ⟨rfl, rfl, rfl⟩

/-! Download-task counting and iterated runs of the after-save rule. -/

theorem downloadTaskStep_count (ts : List Task) (m : Media) (a : List String)
    (ha : a = [toString m.pk]) :
    countKey downloadTaskName a (downloadTaskStep ts m) =
      if !m.downloaded && m.can_download && !m.skip && m.source.download_media
      then 1 else countKey downloadTaskName a ts := by
  subst ha
  unfold downloadTaskStep
  split
  · exact countKey_enqueue_self (media_download_task m) _
  · rfl

theorem downloadTaskStep_mem (ts : List Task) (m : Media)
    (hc : (!m.downloaded && m.can_download && !m.skip && m.source.download_media)
      = true) :
    media_download_task m ∈ downloadTaskStep ts m := by
  unfold downloadTaskStep
  rw [if_pos hc]
  unfold enqueue
  exact List.mem_append_right _ (by simp)

theorem media_post_save_downloadCount (env : Env) (ts : List Task) (m : Media)
    (h : m.manual_skip = false) :
    countKey downloadTaskName [toString m.pk] (media_post_save env ts m).tasks
    = if !(media_post_save env ts m).media.downloaded
        && (media_post_save env ts m).media.can_download
        && !(media_post_save env ts m).media.skip
        && (media_post_save env ts m).media.source.download_media
      then 1 else countKey downloadTaskName [toString m.pk] ts := by
  rw [media_post_save_tasks env ts m h]
  rw [downloadTaskStep_count _ _ [toString m.pk] (by
    rw [mediaFileNormalize_pk, thumbNormalize_pk, canDownloadStep_pk, filterStep_pk])]
  rw [countKey_thumbnailTaskStep_of_ne env _ _ _ _ downloadTaskName_ne_thumbnail,
    countKey_metadataTaskStep_of_ne _ _ _ _ (Ne.symm metadataTaskName_ne_download)]
  rw [media_post_save_media env ts m h]

theorem media_post_save_downloadCount_le_one (env : Env) (ts : List Task) (m : Media)
    (hle : countKey downloadTaskName [toString m.pk] ts ≤ 1) :
    countKey downloadTaskName [toString m.pk] (media_post_save env ts m).tasks ≤ 1 := by
  by_cases hm : m.manual_skip = true
  · rw [media_post_save_of_manual_skip env ts m hm]
    exact hle
  · rw [Bool.not_eq_true] at hm
    rw [media_post_save_downloadCount env ts m hm]
    split
    · exact le_refl 1
    · exact hle

theorem media_post_save_iter_succ (env : Env) (n : Nat) (p : Media × List Task) :
    media_post_save_iter env (n + 1) p =
      media_post_save_iter env n
        ((media_post_save env p.2 p.1).media, (media_post_save env p.2 p.1).tasks) := rfl

theorem media_post_save_iter_pk (env : Env) (n : Nat) (p : Media × List Task) :
    (media_post_save_iter env n p).1.pk = p.1.pk := by
  induction n generalizing p with
  | zero => rfl
  | succ n ih =>
    rw [media_post_save_iter_succ, ih]
    exact media_post_save_pk env p.2 p.1

theorem media_post_save_iter_downloadCount (env : Env) (n : Nat)
    (p : Media × List Task)
    (hle : countKey downloadTaskName [toString p.1.pk] p.2 ≤ 1) :
    countKey downloadTaskName [toString p.1.pk] (media_post_save_iter env n p).2 ≤ 1 := by
  induction n generalizing p with
  | zero => exact hle
  | succ n ih =>
    rw [media_post_save_iter_succ]
    have h1 : countKey downloadTaskName
        [toString (media_post_save env p.2 p.1).media.pk]
        (media_post_save env p.2 p.1).tasks ≤ 1 := by
      rw [media_post_save_pk env p.2 p.1]
      exact media_post_save_downloadCount_le_one env p.2 p.1 hle
    have h2 := ih ((media_post_save env p.2 p.1).media, (media_post_save env p.2 p.1).tasks) h1
    rw [media_post_save_pk env p.2 p.1] at h2
    exact h2

/-- C5: for every Media item with manual_skip false: if the media file is
absent from disk the rule forces downloaded to false and nulls media_file
on the in-memory instance; if after this normalization the item is not
downloaded, can_download is true, skip is false and the owning Source has
download_media enabled, then any pending download-media job for this key is
superseded and exactly one fresh download-media job is pending (queue
partition the owning source id, priority 15 — the highest numeric tier of
the priority table); and at most one pending download-media job exists per
media key even after N successive runs. -/
theorem claim_C5 (env : Env) (ts : List Task) (m : Media)
    (h : m.manual_skip = false) :
    (media_file_exists env m = false →
      (media_post_save env ts m).media.downloaded = false ∧
      (media_post_save env ts m).media.media_file = none) ∧
    ((media_post_save env ts m).media.downloaded = false →
     (media_post_save env ts m).media.can_download = true →
     (media_post_save env ts m).media.skip = false →
     m.source.download_media = true →
      countKey downloadTaskName [toString m.pk] (media_post_save env ts m).tasks = 1 ∧
      media_download_task (media_post_save env ts m).media ∈ (media_post_save env ts m).tasks ∧
      (media_download_task (media_post_save env ts m).media).queue
        = some (toString m.source.pk) ∧
      (media_download_task (media_post_save env ts m).media).priority = 15) ∧
    (countKey downloadTaskName [toString m.pk] ts ≤ 1 →
      ∀ n, countKey downloadTaskName [toString m.pk]
        (media_post_save_iter env n (m, ts)).2 ≤ 1) := by
  refine ⟨?_, ?_, ?_⟩
  · intro hfe
    have hm3 : (thumbNormalize env (canDownloadStep env (filterStep env m).1).1).media_file
        = m.media_file := by
      rw [thumbNormalize_media_file, canDownloadStep_media_file, filterStep_media_file]
    have hfe3 : media_file_exists env
        (thumbNormalize env (canDownloadStep env (filterStep env m).1).1) = false := by
      rw [media_file_exists_congr env _ m hm3, hfe]
    constructor
    · rw [media_post_save_media env ts m h, mediaFileNormalize_eq, hfe3]
      simp
    · rw [media_post_save_media env ts m h, mediaFileNormalize_eq, hfe3]
      simp
  · intro hdw hcd hsk hdm
    have hsrc4 : (media_post_save env ts m).media.source = m.source :=
      media_post_save_source env ts m
    have hcond : (!(media_post_save env ts m).media.downloaded
        && (media_post_save env ts m).media.can_download
        && !(media_post_save env ts m).media.skip
        && (media_post_save env ts m).media.source.download_media) = true := by
      rw [hdw, hcd, hsk, hsrc4, hdm]
      rfl
    refine ⟨?_, ?_, ?_, rfl⟩
    · rw [media_post_save_downloadCount env ts m h, if_pos hcond]
    · have hcond4 := hcond
      rw [media_post_save_media env ts m h] at hcond4
      rw [media_post_save_tasks env ts m h, media_post_save_media env ts m h]
      exact downloadTaskStep_mem _ _ hcond4
    · show some (toString (media_post_save env ts m).media.source.pk)
        = some (toString m.source.pk)
      rw [hsrc4]
  · intro hle n
    exact media_post_save_iter_downloadCount env n (m, ts) hle

/-- Witness for C5 at a concrete download-eligible media item. -/
theorem claim_C5_witness :
    countKey downloadTaskName [toString mC5.pk] (media_post_save envW [] mC5).tasks = 1 ∧
    countKey downloadTaskName [toString mC5.pk]
      (media_post_save_iter envW 3 (mC5, [])).2 ≤ 1 :=
  ⟨((claim_C5 envW [] mC5 rfl).2.1 (by decide) (by decide) (by decide) rfl).1,
   (claim_C5 envW [] mC5 rfl).2.2 (by decide) 3⟩

/-- C6: in the Source before-update rule: if the persisted Source exists
and its index_schedule differs from the about-to-be-written value, the
existing recurring indexing job keyed by the source id is cancelled and
exactly one new recurring indexing job is pending, carrying the new
interval, routine priority 5 and queue partition equal to the source id; if
index_schedule is unchanged no Task Registry command is issued; and if no
persisted Source with this id exists the rule is a non-fatal no-op. -/
theorem claim_C6 (ts : List Task) (stored : Option Source) (s : Source) :
    (stored = none → source_pre_save stored ts s = ts) ∧
    (∀ ex, stored = some ex → ex.index_schedule = s.index_schedule →
      source_pre_save stored ts s = ts) ∧
    (∀ ex, stored = some ex → ex.index_schedule ≠ s.index_schedule →
      (source_pre_save stored ts s).filter
          (fun u => taskKeyMatches indexTaskName [toString s.pk] u)
        = [index_source_task s] ∧
      (index_source_task s).repeatInterval = s.index_schedule ∧
      (index_source_task s).priority = 5 ∧
      (index_source_task s).queue = some (toString s.pk)) := by
  refine ⟨?_, ?_, ?_⟩
  · intro h0
    rw [h0]
    rfl
  · intro ex hex heq
    rw [hex]
    show (if (ex.index_schedule != s.index_schedule) = true then
        enqueue (index_source_task s) true (delete_task_by_source indexTaskName s.pk ts)
      else ts) = ts
    simp [heq]
  · intro ex hex hne
    rw [hex]
    refine ⟨?_, rfl, rfl, rfl⟩
    show ((if (ex.index_schedule != s.index_schedule) = true then
        enqueue (index_source_task s) true (delete_task_by_source indexTaskName s.pk ts)
      else ts).filter (fun u => taskKeyMatches indexTaskName [toString s.pk] u))
      = [index_source_task s]
    rw [if_pos (bne_iff_ne.mpr hne)]
    exact filter_key_enqueue_self (index_source_task s) _

/-- Witness for C6 at a concrete source whose schedule changed from 0 to
3600. -/
theorem claim_C6_witness :
    (source_pre_save (some srcC6) [] srcC6b).filter
        (fun u => taskKeyMatches indexTaskName [toString srcC6b.pk] u)
      = [index_source_task srcC6b] :=
  ((claim_C6 [] (some srcC6) srcC6b).2.2 srcC6 rfl (by decide)).1

/-- C7 counterexample: a permanently failed directory-check job that
resolves to a Source sets has_failed although its kind is neither indexing
nor metadata-fetch, so a job kind other than those does trigger a
persistent failure flag, contrary to the claim. -/
theorem claim_C7_counterexample :
    (task_task_failed (ResolvedTarget.sourceT srcC7)
        "sync.tasks.check_source_directory_exists").savedSource
      = some {srcC7 with has_failed := true} := rfl

/-- C7 amended: on the job-permanently-failed event: for a Media target,
skip is set and persisted exactly when the failed job kind is
metadata-fetch, and a failed thumbnail or media-download job sets no
persistent flag; but for a Source target has_failed is set and persisted
regardless of the failed job kind — the handler does not restrict the
Source branch to indexing jobs; an unknown target persists nothing. -/
theorem claim_C7 (obj : ResolvedTarget) (tn : String) :
    (∀ m, obj = ResolvedTarget.mediaT m →
      ((task_task_failed obj tn).savedMedia = some {m with skip := true}
          ↔ tn = metadataTaskName) ∧
      (tn ≠ metadataTaskName → task_task_failed obj tn = ⟨none, none⟩)) ∧
    (∀ s, obj = ResolvedTarget.sourceT s →
      (task_task_failed obj tn).savedSource = some {s with has_failed := true}) ∧
    (obj = ResolvedTarget.unknownT → task_task_failed obj tn = ⟨none, none⟩) := by
  refine ⟨?_, ?_, ?_⟩
  · intro m hm
    subst hm
    by_cases ht : tn = metadataTaskName
    · refine ⟨⟨fun _ => ht, fun _ => by simp [task_task_failed, ht]⟩, ?_⟩
      intro hn
      exact absurd ht hn
    · refine ⟨⟨fun hsm => ?_, fun hteq => absurd hteq ht⟩, fun _ => by
        simp [task_task_failed, ht]⟩
      simp [task_task_failed, ht] at hsm
  · intro s hs
    subst hs
    rfl
  · intro hu
    subst hu
    rfl

/-- Witness for the amended C7: a failed metadata-fetch job for a concrete
media item persists skip = true. -/
theorem claim_C7_witness :
    (task_task_failed (ResolvedTarget.mediaT mC7) metadataTaskName).savedMedia
      = some {mC7 with skip := true} :=
  (((claim_C7 (ResolvedTarget.mediaT mC7) metadataTaskName).1 mC7 rfl).1).mpr rfl

/-! Pre- and post-delete lemmas. -/

theorem media_pre_delete_tasks (env : Env) (ts : List Task) (m : Media) :
    (media_pre_delete env ts m).tasks =
      match env.thumbnailUrl m.metadata with
      | some url => delete_task_by_media thumbnailTaskName [toString m.pk, url]
          (delete_task_by_media downloadTaskName [toString m.pk] ts)
      | none => delete_task_by_media downloadTaskName [toString m.pk] ts := rfl

theorem media_pre_delete_deletedFiles (env : Env) (ts : List Task) (m : Media) :
    (media_pre_delete env ts m).deletedFiles =
      (if m.source.delete_files_on_disk && (m.media_file.isSome || m.thumb.isSome) then
        glob_star env (splitext (match m.media_file with
          | some p => p
          | none => match m.thumb with | some q => q | none => "")).1
      else []) := rfl

theorem filter_key_delete_other (n : String) (a : List String) (n2 : String)
    (a2 : List String) (ts : List Task) (h : n ≠ n2 ∨ a ≠ a2) :
    (delete_task_by_media n2 a2 ts).filter (fun u => taskKeyMatches n a u)
      = ts.filter (fun u => taskKeyMatches n a u) := by
  unfold delete_task_by_media
  induction ts with
  | nil => rfl
  | cons t ts ih =>
    by_cases hk : taskKeyMatches n2 a2 t = true
    · have hd := taskKeyMatches_disjoint n a n2 a2 t h hk
      simp [List.filter_cons, hk, hd, ih]
    · simp only [Bool.not_eq_true] at hk
      simp [List.filter_cons, hk, ih]

theorem filter_key_enqueue_other (n : String) (a : List String) (t : Task)
    (ts : List Task) (h : taskKeyMatches n a t = false) :
    (enqueue t true ts).filter (fun u => taskKeyMatches n a u)
      = ts.filter (fun u => taskKeyMatches n a u) := by
  rw [enqueue_true_eq, List.filter_append]
  have h1 : ([t].filter (fun u => taskKeyMatches n a u)) = [] := by
    simp [h]
  rw [h1, List.append_nil]
  have hd : n ≠ t.task_name ∨ a ≠ t.args := by
    unfold taskKeyMatches at h
    by_cases h1 : t.task_name = n
    · right
      intro hc
      rw [h1, hc] at h
      simp at h
    · left
      exact fun hc => h1 hc.symm
  exact filter_key_delete_other n a _ _ ts hd

theorem media_post_delete_cons (s : MediaServer) (rest : List MediaServer)
    (ts : List Task) :
    media_post_delete (s :: rest) ts
      = media_post_delete rest (enqueue (rescan_task s) true ts) := rfl

theorem media_post_delete_filter_notmem (servers : List MediaServer)
    (ts : List Task) (k : String)
    (hk : ¬ k ∈ servers.map (fun s => toString s.pk)) :
    (media_post_delete servers ts).filter (fun u => taskKeyMatches rescanTaskName [k] u)
      = ts.filter (fun u => taskKeyMatches rescanTaskName [k] u) := by
  induction servers generalizing ts with
  | nil => rfl
  | cons s rest ih =>
    rw [media_post_delete_cons]
    have hk1 : k ≠ toString s.pk := by
      intro hc
      exact hk (by rw [hc]; exact List.mem_map.mpr ⟨s, List.mem_cons_self s rest, rfl⟩)
    have hk2 : ¬ k ∈ rest.map (fun s2 => toString s2.pk) := by
      intro hc
      rcases List.mem_map.mp hc with ⟨s2, hs2, he⟩
      exact hk (List.mem_map.mpr ⟨s2, List.mem_cons_of_mem s hs2, he⟩)
    rw [ih _ hk2]
    apply filter_key_enqueue_other
    unfold taskKeyMatches rescan_task
    simp
    exact fun hc => hk1 hc.symm

theorem media_post_delete_filter_key (servers : List MediaServer) (ts : List Task)
    (k : String) (hk : k ∈ servers.map (fun s => toString s.pk)) :
    (media_post_delete servers ts).filter
      (fun u => taskKeyMatches rescanTaskName [k] u) = [rescan_task_key k] := by
  induction servers generalizing ts with
  | nil => simp at hk
  | cons s rest ih =>
    rw [media_post_delete_cons]
    by_cases hin : k ∈ rest.map (fun s2 => toString s2.pk)
    · exact ih _ hin
    · have hks : k = toString s.pk := by
        rcases List.mem_map.mp hk with ⟨s2, hs2, he⟩
        rcases List.mem_cons.mp hs2 with h | h
        · rw [← he, h]
        · exact absurd (List.mem_map.mpr ⟨s2, h, he⟩) hin
      rw [media_post_delete_filter_notmem rest _ k hin]
      subst hks
      exact filter_key_enqueue_self (rescan_task s) ts

theorem media_post_delete_filter (servers : List MediaServer) (ts : List Task)
    (ms : MediaServer) (hms : ms ∈ servers) :
    (media_post_delete servers ts).filter
      (fun u => taskKeyMatches rescanTaskName [toString ms.pk] u) = [rescan_task ms] :=
  media_post_delete_filter_key servers ts (toString ms.pk)
    (List.mem_map.mpr ⟨ms, hms, rfl⟩)

/-- C8: on Media deletion: before the delete, the pending download-media
job for this id is cancelled; the pending thumbnail job keyed by (id,
thumbnail URL) is cancelled when a URL is resolvable; when the owning
Source deletes files on disk and a media file (or, failing that, a
thumbnail) reference exists, every file on disk sharing the
extension-stripped base name of the present reference is deleted; after the
delete, exactly one rescan job per registered MediaServer is pending, at
priority 0 (the lowest tier), each replacing any pending instance. -/
theorem claim_C8 (env : Env) (ts ts2 : List Task) (m : Media)
    (servers : List MediaServer) :
    (countKey downloadTaskName [toString m.pk] (media_pre_delete env ts m).tasks = 0) ∧
    (∀ url, env.thumbnailUrl m.metadata = some url →
      countKey thumbnailTaskName [toString m.pk, url]
        (media_pre_delete env ts m).tasks = 0) ∧
    (m.source.delete_files_on_disk = true → ∀ p, m.media_file = some p →
      (media_pre_delete env ts m).deletedFiles = glob_star env (splitext p).1 ∧
      (∀ f, f ∈ env.files → ((splitext p).1 ++ ".").data.isPrefixOf f.data = true →
        f ∈ (media_pre_delete env ts m).deletedFiles)) ∧
    (m.source.delete_files_on_disk = true → m.media_file = none →
      ∀ q, m.thumb = some q →
      (media_pre_delete env ts m).deletedFiles = glob_star env (splitext q).1) ∧
    (∀ ms, ms ∈ servers →
      (media_post_delete servers ts2).filter
        (fun u => taskKeyMatches rescanTaskName [toString ms.pk] u) = [rescan_task ms] ∧
      (rescan_task ms).priority = 0) := by
  refine ⟨?_, ?_, ?_, ?_, ?_⟩
  · rw [media_pre_delete_tasks]
    cases hurl : env.thumbnailUrl m.metadata with
    | none => exact countKey_delete_self _ _ _
    | some url =>
      show countKey downloadTaskName [toString m.pk]
        (delete_task_by_media thumbnailTaskName [toString m.pk, url]
          (delete_task_by_media downloadTaskName [toString m.pk] ts)) = 0
      rw [countKey_delete_other _ _ _ _ _ (Or.inl downloadTaskName_ne_thumbnail)]
      exact countKey_delete_self _ _ _
  · intro url hurl
    rw [media_pre_delete_tasks, hurl]
    exact countKey_delete_self _ _ _
  · intro hdel p hp
    have hde : (media_pre_delete env ts m).deletedFiles = glob_star env (splitext p).1 := by
      rw [media_pre_delete_deletedFiles, hdel, hp]
      rfl
    refine ⟨hde, ?_⟩
    intro f hf hpre
    rw [hde]
    unfold glob_star
    exact List.mem_filter.mpr ⟨hf, hpre⟩
  · intro hdel hmf q hq
    rw [media_pre_delete_deletedFiles, hdel, hmf, hq]
    rfl
  · intro ms hms
    exact ⟨media_post_delete_filter servers ts2 ms hms, rfl⟩

/-- Witness for C8: the sibling files sharing the stem of the tracked
media file are deleted and a concrete rescan job is pending once. -/
theorem claim_C8_witness :
    (media_pre_delete envC8 [] mC8).deletedFiles = glob_star envC8 (splitext "d/v.mp4").1 ∧
    (media_post_delete [⟨20⟩] []).filter
      (fun u => taskKeyMatches rescanTaskName [toString (20 : Nat)] u)
      = [rescan_task ⟨20⟩] :=
  ⟨((claim_C8 envC8 [] [] mC8 [⟨20⟩]).2.2.1 rfl "d/v.mp4" rfl).1,
    ((claim_C8 envC8 [] [] mC8 [⟨20⟩]).2.2.2.2 ⟨20⟩ (by simp)).1⟩

/-- C9 counterexample: a Media item mW2 whose save performs a corrective
write (so the disconnected window exists), and a different Media item mC4
whose save, dispatched during that window through the disconnected
registry, runs no part of the after-save rule although the full rule would
have enqueued a metadata-fetch task for it. -/
theorem claim_C9_counterexample :
    (media_post_save envW [] mW2).persisted.isSome = true ∧
    dispatch_media_post_save connectedDuringCorrectiveSave envW [] mC4
      = ⟨mC4, [], none⟩ ∧
    (media_post_save envW [] mC4).tasks ≠ [] := by
  refine ⟨by decide, rfl, by decide⟩

/-- C9 amended: the disconnect around the corrective persistence detaches
the post_save receiver for the Media sender as a whole in the process
signal registry, so while one Media corrective write is in progress a save
of any Media item dispatched in the same process runs no part of the
after-save rule; with the receiver connected the dispatch runs the full
rule. -/
theorem claim_C9 (env : Env) (ts : List Task) (m : Media) :
    dispatch_media_post_save connectedDuringCorrectiveSave env ts m = ⟨m, ts, none⟩ ∧
    dispatch_media_post_save true env ts m = media_post_save env ts m :=
  ⟨rfl, rfl⟩

/-- C10: the file-reference normalizations of the Media after-save rule are
never persisted by the rule itself: when the rule performs its (single)
corrective persistence, the persisted snapshot retains the incoming thumb,
media_file and downloaded values and differs from the incoming instance at
most in skip and can_download. -/
theorem claim_C10 (env : Env) (ts : List Task) (m : Media) :
    ∀ s, (media_post_save env ts m).persisted = some s →
      s.thumb = m.thumb ∧ s.media_file = m.media_file ∧ s.downloaded = m.downloaded ∧
      s = {m with skip := s.skip, can_download := s.can_download} := by
  intro s hs
  by_cases hm : m.manual_skip = true
  · rw [media_post_save_of_manual_skip env ts m hm] at hs
    simp at hs
  · rw [Bool.not_eq_true] at hm
    rw [media_post_save_persisted env ts m hm] at hs
    split at hs
    · have hes : s = (canDownloadStep env (filterStep env m).1).1 :=
        (Option.some.inj hs).symm
      subst hes
      refine ⟨?_, ?_, ?_, ?_⟩
      · rw [canDownloadStep_thumb, filterStep_thumb]
      · rw [canDownloadStep_media_file, filterStep_media_file]
      · rw [canDownloadStep_downloaded, filterStep_downloaded]
      · apply Media.ext
        · rw [canDownloadStep_pk, filterStep_pk]
        · rw [canDownloadStep_source, filterStep_source]
        · rw [canDownloadStep_metadata, filterStep_metadata]
        · rfl
        · rw [canDownloadStep_manual_skip, filterStep_manual_skip]
        · rfl
        · rw [canDownloadStep_downloaded, filterStep_downloaded]
        · rw [canDownloadStep_media_file, filterStep_media_file]
        · rw [canDownloadStep_thumb, filterStep_thumb]
    · simp at hs

/-- Witness for C10 at a concrete media item whose corrective save flips
can_download. -/
theorem claim_C10_witness :
    (media_post_save envW [] mW2).persisted = some {mW2 with can_download := true} ∧
    ({mW2 with can_download := true} : Media).thumb = mW2.thumb :=
  ⟨by decide,
    (claim_C10 envW [] mW2 {mW2 with can_download := true} (by decide)).1⟩

end TubeSync
